import Mathlib

/-!
Shallow embedding of `DinamoFlow.py`: a streaming record-validation and
normalization pipeline.  Records are mappings from string field names to
dynamically typed values; an operation chain selected by the record type
normalizes and validates fields, accumulating error-message strings.

Modelling conventions:
* Python dicts become insertion-ordered association lists (`Record`);
  assignment updates the first matching key in place, otherwise appends.
* Python values become the tagged variant `Value` (string, float, bool,
  None, list of strings); Python floats are modelled as exact rationals,
  since every float the pipeline produces is parsed from a finite decimal
  string.  `str(value)` becomes `Value.toStr`.
* Python regular expressions are modelled by the small AST `Rx` with
  `re.match` (anchored-at-start) semantics; `\x5cd` is the ASCII digit class.
* Code that can raise an uncaught exception is modelled with `Option`:
  `none` marks the raise (appending to a non-list `__errors__` value raises
  `AttributeError`; a dict-membership test on an unhashable list raises
  `TypeError`).  `float(...)` raising `ValueError` is caught in the source,
  so the parser is the total function `pyFloat?`.
-/

namespace DinamoFlow

/-- Tagged variant for the dynamically typed values a record can hold. -/
inductive Value where
  | str (s : String)
  | num (q : ℚ)
  | bool (b : Bool)
  | null
  | list (l : List String)
deriving DecidableEq

/-- Python truth-value testing: `None`, `""`, `0`, `False` and `[]` are falsy
(a rational is zero exactly when its numerator is zero). -/
def Value.falsy : Value → Bool
  | .str s => s == ""
  | .num q => q.num == 0
  | .bool b => !b
  | .null => true
  | .list l => l.isEmpty

/-- Fractional decimal digits of `num / den`, most significant first, stopping
at the exact expansion (or at the fuel bound for non-terminating expansions;
pipeline-produced numbers come from finite decimal strings, so they are exact). -/
def fracDigits : Nat → Nat → Nat → List Char
  | 0, _, _ => []
  | _ + 1, 0, _ => []
  | fuel + 1, num, den =>
    let num10 := num * 10
    Nat.digitChar (num10 / den) :: fracDigits fuel (num10 % den) den

/-- Rendering of a number as Python `str(float)` renders it for plain decimal
values: integer part, a dot, and the fractional digits (`.0` when integral). -/
def numToStr (q : ℚ) : String :=
  let sign := if q.num < 0 then "-" else ""
  let n := q.num.natAbs
  let d := q.den
  let frac := fracDigits 17 (n % d) d
  sign ++ toString (n / d) ++ "." ++ (if frac.isEmpty then "0" else String.mk frac)

/-- Python `str()` applied to a value: strings unchanged, `None` → `"None"`,
booleans capitalized, numbers in decimal, lists with quoted elements. -/
def Value.toStr : Value → String
  | .str s => s
  | .num q => numToStr q
  | .bool true => "True"
  | .bool false => "False"
  | .null => "None"
  | .list l => "[" ++ String.intercalate ", " (l.map (fun s => "\x27" ++ s ++ "\x27")) ++ "]"

/-- A record: an insertion-ordered mapping from field names to values. -/
abbrev Record := List (String × Value)

/-- Dict lookup: value of the first entry with the given key. -/
def getVal : Record → String → Option Value
  | [], _ => none
  | (k, v) :: r, key => if k = key then some v else getVal r key

/-- Dict assignment `record[key] = v`: replace the first entry with the key
in place, otherwise append a new entry (Python dict insertion order). -/
def setVal : Record → String → Value → Record
  | [], key, v => [(key, v)]
  | (k, w) :: r, key, v => if k = key then (key, v) :: r else (k, w) :: setVal r key v

/-- `record.setdefault(key, v)`: keep the record unchanged when the key is
present, otherwise append the default entry. -/
def setdefault (r : Record) (key : String) (v : Value) : Record :=
  match getVal r key with
  | some _ => r
  | none => r ++ [(key, v)]

/-- Regular-expression AST covering the constructs the pipeline uses:
single-character classes, one-or-more repetition of a class, concatenation,
the empty pattern, and the end anchor `$`. -/
inductive Rx where
  | eps
  | cls (p : Char → Bool)
  | plusCls (p : Char → Bool)
  | seq (a b : Rx)
  | eos

/-- Remainders after consuming one or more characters of class `p`
(one remainder per possible repetition count). -/
def plusRem (p : Char → Bool) : List Char → List (List Char)
  | [] => []
  | c :: rest => if p c then rest :: plusRem p rest else []

/-- All suffixes left over after the pattern matches a prefix of the input. -/
def Rx.rem : Rx → List Char → List (List Char)
  | .eps, s => [s]
  | .cls _, [] => []
  | .cls p, c :: rest => if p c then [rest] else []
  | .plusCls p, s => plusRem p s
  | .seq a b, s => (Rx.rem a s).flatMap (Rx.rem b)
  | .eos, s => if s.isEmpty then [[]] else []

/-- Truthiness of `re.match(pattern, s)`: the pattern matches some prefix of
`s` starting at position 0. -/
def Rx.rmatch (r : Rx) (s : String) : Bool := !(Rx.rem r s.toList).isEmpty

/-- Single literal character pattern. -/
def rxCh (c : Char) : Rx := Rx.cls (fun x => x == c)

/-- Literal string pattern. -/
def rxStr (s : String) : Rx := s.toList.foldr (fun c acc => Rx.seq (rxCh c) acc) Rx.eps

/-- ASCII `\x5cd` character class. -/
def rxDigit : Rx := Rx.cls Char.isDigit

/-- Exactly `n` repetitions, as in `\x5cd{4}`. -/
def rxRep : Nat → Rx → Rx
  | 0, _ => Rx.eps
  | n + 1, r => Rx.seq r (rxRep n r)

/-- Concatenation of a pattern list, terminated by the `$` anchor. -/
def rxCat (l : List Rx) : Rx := l.foldr Rx.seq Rx.eos

/-- The pattern `^ORD\x5cd+$` from the order-event chain. -/
def ordIdRx : Rx := rxCat [rxStr "ORD", Rx.plusCls Char.isDigit]

/-- The timestamp pattern from the order-event chain. -/
def timestampRx : Rx :=
  rxCat [rxRep 4 rxDigit, rxCh '-', rxRep 2 rxDigit, rxCh '-', rxRep 2 rxDigit,
         rxCh 'T', rxRep 2 rxDigit, rxCh ':', rxRep 2 rxDigit, rxCh ':', rxRep 2 rxDigit,
         rxCh 'Z']

/-- The cleanup in `NormalizeAmountOperation.apply`:
strip every character outside the class of digits, periods, commas and minus
signs, then standardize the decimal separator by replacing commas with periods. -/
def cleanValue (s : String) : String :=
  String.mk (((s.toList.filter (fun c => c.isDigit || c == '.' || c == ',' || c == '-'))).map
    (fun c => if c == ',' then '.' else c))

/-- Value of a digit string. -/
def digitsVal (cs : List Char) : Nat := cs.foldl (fun a c => a * 10 + (c.toNat - 48)) 0

/-- Unsigned part of the Python float grammar over strings containing only
digits, dots and minus signs: digits with at most one dot and at least one
digit; any stray character (in particular a minus sign) fails.  The result is
an unreduced numerator/denominator pair with the denominator a power of ten. -/
def parseUnsigned? (cs : List Char) : Option (Nat × Nat) :=
  let intp := cs.takeWhile Char.isDigit
  let rest := cs.dropWhile Char.isDigit
  match rest with
  | [] => if intp.isEmpty then none else some (digitsVal intp, 1)
  | '.' :: frac =>
    if frac.all Char.isDigit && (!intp.isEmpty || !frac.isEmpty) then
      some (digitsVal intp * 10 ^ frac.length + digitsVal frac, 10 ^ frac.length)
    else none
  | _ => none

/-- `float(s)` on a cleaned string (whose characters are digits, dots and
minus signs): an optional leading minus sign, then the unsigned grammar.
Returns `none` where Python raises `ValueError`; the source catches it. -/
def pyFloat? (s : String) : Option ℚ :=
  match s.toList with
  | '-' :: rest => (parseUnsigned? rest).map (fun p => mkRat (-(p.1 : Int)) p.2)
  | cs => (parseUnsigned? cs).map (fun p => mkRat p.1 p.2)

/-- The two concrete `Operation` subclasses, with their constructor fields:
`NormalizeAmountOperation(field_name)` and
`ContextualFieldValidation(field_name, regex)`. -/
inductive Operation where
  | normalizeAmount (field : String)
  | contextualFieldValidation (field : String) (regex : Option Rx)

/-- The configured target field of an operation. -/
def Operation.field_name : Operation → String
  | .normalizeAmount f => f
  | .contextualFieldValidation f _ => f

/-- `Operation.apply`, translating both subclasses: normalization coerces the
field to a float (absent key → error and `None`; `None` value → no-op; other
values are stringified, cleaned and parsed, failures → error and `None`);
validation reports at most one error (absent key, then pattern mismatch when
a truthy pattern is configured, then falsiness) and never mutates the record. -/
def Operation.apply : Operation → Record → Record × List String
  | .normalizeAmount f, record =>
    match getVal record f with
    | none => (setVal record f .null, ["Campo \x27 " ++ f ++ "\x27 no encontrado"])
    | some v =>
      if v = .null then (record, [])
      else
        match pyFloat? (cleanValue v.toStr) with
        | some q => (setVal record f (.num q), [])
        | none =>
          (setVal record f .null,
           ["Valor \x27 " ++ v.toStr ++ "\x27 no se puede convertirse a float"])
  | .contextualFieldValidation f rx, record =>
    (record,
      match getVal record f with
      | none => ["Campo obligatorio \x27 " ++ f ++ "\x27 no encontrado"]
      | some v =>
        if (match rx with | some pat => !(pat.rmatch v.toStr) | none => false) then
          ["Campo \x27 " ++ f ++ "\x27 no cumple formato esperado"]
        else if v.falsy then
          ["Campo obligatorio \x27" ++ f ++ "\x27 está vacío"]
        else [])

/-- The `RecordContextManager.context_operations` table: context type → chain. -/
abbrev ContextOps := List (String × List Operation)

/-- Dict lookup in the registry. -/
def lookupCtx : ContextOps → String → Option (List Operation)
  | [], _ => none
  | (t, ops) :: r, key => if t = key then some ops else lookupCtx r key

/-- `RecordContextManager.register_context`: raises `ValueError` (modelled as
`Except.error`) when the context type is already registered, leaving the
table untouched; otherwise stores the chain. -/
def register_context (ctx : ContextOps) (context_type : String) (operations : List Operation) :
    Except String ContextOps :=
  match lookupCtx ctx context_type with
  | some _ => .error ("El contexto \x27" ++ context_type ++ "\x27 ya está registrado")
  | none => .ok (ctx ++ [(context_type, operations)])

/-- The per-record chain loop of `process_stream`: fold the operations over
the record, each receiving the record mutated by the previous one, extending
the local error list with each operation's errors. -/
def chainApply (ops : List Operation) (r : Record) : Record × List String :=
  ops.foldl (fun acc op => let res := op.apply acc.1; (res.1, acc.2 ++ res.2)) (r, [])

/-- `record["__errors__"].append/extend`: appends to the stored list, or
`none` for the uncaught `AttributeError` when the stored value is not a list. -/
def appendErrors (r : Record) (es : List String) : Option Record :=
  match getVal r "__errors__" with
  | some (.list l) => some (setVal r "__errors__" (.list (l ++ es)))
  | _ => none

/-- The metadata defaulting step of `process_stream`: `setdefault` of
`__estado__` to `"válido"` and of `__errors__` to the empty list. -/
def defaultMeta (r : Record) : Record :=
  setdefault (setdefault r "__estado__" (.str "válido")) "__errors__" (.list [])

/-- The unrecognized-type message, built from `str()` of the value
`record.get("__type__")` returned (so `"None"` when the key is absent). -/
def unrecMsg (cty : Option Value) : String :=
  "Tipo de registro \x27" ++ (match cty with | some v => v.toStr | none => "None") ++
    "\x27 no reconocido"

/-- The unrecognized-type branch of `process_stream`: set `__estado__` to
`"inválido"`, append the single message to `__errors__`, and yield the pair. -/
def unrecognized (r : Record) (cty : Option Value) : Option (Record × List String) :=
  (appendErrors (setVal r "__estado__" (.str "inválido")) [unrecMsg cty]).map
    (fun r2 => (r2, [unrecMsg cty]))

/-- The recognized-type branch of `process_stream`: run the chain; when the
local error list is non-empty, set `__estado__` to `"inválido"` and extend
`__errors__` with the accumulated errors; yield the record and local errors. -/
def runChain (ops : List Operation) (r : Record) : Option (Record × List String) :=
  let res := chainApply ops r
  if res.2.isEmpty then some res
  else (appendErrors (setVal res.1 "__estado__" (.str "inválido")) res.2).map
    (fun r2 => (r2, res.2))

/-- The type dispatch `if not context_type or context_type not in
self.context_operations`: a truthy non-string marker is hashable (so simply
not found) except for a non-empty list, whose membership test raises
`TypeError`; the empty string is falsy, so a registered `""` is still routed
to the unrecognized branch. -/
def dispatch (ctx : ContextOps) (r : Record) (cty : Option Value) :
    Option (Record × List String) :=
  match cty with
  | some (.list (_ :: _)) => none
  | some (.str s) =>
    if s = "" then unrecognized r cty
    else
      match lookupCtx ctx s with
      | some ops => runChain ops r
      | none => unrecognized r cty
  | _ => unrecognized r cty

/-- The body of the `for` loop of `RecordContextManager.process_stream` for a
single record: default the metadata, read the type marker, dispatch. -/
def processRecord (ctx : ContextOps) (record : Record) : Option (Record × List String) :=
  let r := defaultMeta record
  dispatch ctx r (getVal r "__type__")

/-- `process_stream` over a materialized finite input stream: one
(record, errors) outcome per input record, in input order; `none` when a
record raises (a Python exception aborts the generator). -/
def process_stream (ctx : ContextOps) (records : List Record) :
    Option (List (Record × List String)) :=
  records.mapM (processRecord ctx)

/-- Recursive per-operation form of the chain loop: each operation receives
the record mutated by the previous one, and the error lists are concatenated
in execution order.  Proved equal to the `foldl`-based `chainApply`. -/
def chainSpec : List Operation → Record → Record × List String
  | [], r => (r, [])
  | op :: rest, r =>
    let res := op.apply r
    let res2 := chainSpec rest res.1
    (res2.1, res.2 ++ res2.2)

/-- The final status marker is the string `"inválido"`. -/
def statusInvalid (r : Record) : Bool :=
  match getVal r "__estado__" with
  | some (.str s) => s == "inválido"
  | _ => false

/-- The stored `__errors__` value is a non-empty list. -/
def errsNonempty (r : Record) : Bool :=
  match getVal r "__errors__" with
  | some (.list l) => !l.isEmpty
  | _ => false

/-- The stored `__errors__` value, when present, is a list (so appending to
it cannot raise). -/
def errsShapeOK (r : Record) : Bool :=
  match getVal r "__errors__" with
  | none => true
  | some (.list _) => true
  | _ => false

/-- The stored `__type__` value, when present, is not a non-empty list (so
the registry membership test cannot raise). -/
def typeShapeOK (r : Record) : Bool :=
  match getVal r "__type__" with
  | some (.list (_ :: _)) => false
  | _ => true

/-- The incoming error list of a record, empty when absent or not a list. -/
def errsList (r : Record) : List String :=
  match getVal r "__errors__" with
  | some (.list l) => l
  | _ => []

/-- The unrecognized-type message a given record would produce. -/
def typeErrMsg (r : Record) : String := unrecMsg (getVal r "__type__")

/-- No operation of the chain targets a reserved metadata field. -/
def chainOK (ops : List Operation) : Prop :=
  ∀ op ∈ ops, op.field_name ≠ "__estado__" ∧ op.field_name ≠ "__errors__"

/-- Every chain of the registry satisfies `chainOK`. -/
def ctxOK (ctx : ContextOps) : Prop := ∀ p ∈ ctx, chainOK p.2

instance (ops : List Operation) : Decidable (chainOK ops) :=
  List.decidableBAll _ ops

instance (ctx : ContextOps) : Decidable (ctxOK ctx) :=
  List.decidableBAll _ ctx

theorem getVal_setVal_self (r : Record) (k : String) (v : Value) :
    getVal (setVal r k v) k = some v := by
  induction r with
  | nil => simp [setVal, getVal]
  | cons hd tl ih =>
    obtain ⟨k2, w⟩ := hd
    by_cases h : k2 = k
    · simp [setVal, h, getVal]
    · simp [setVal, h, getVal, ih]

theorem getVal_setVal_ne (r : Record) (k k2 : String) (v : Value) (h : k ≠ k2) :
    getVal (setVal r k v) k2 = getVal r k2 := by
  induction r with
  | nil => simp [setVal, getVal, h]
  | cons hd tl ih =>
    obtain ⟨k3, w⟩ := hd
    by_cases h3 : k3 = k
    · subst h3
      simp [setVal, getVal, h]
    · simp [setVal, h3, getVal, ih]

theorem getVal_append_none (r : Record) (k k2 : String) (v : Value)
    (h : getVal r k2 = none) :
    getVal (r ++ [(k, v)]) k2 = if k = k2 then some v else none := by
  induction r with
  | nil => simp [getVal]
  | cons hd tl ih =>
    obtain ⟨k3, w⟩ := hd
    simp only [getVal] at h
    by_cases h3 : k3 = k2
    · simp [h3] at h
    · simp only [h3, if_false] at h
      simp [getVal, h3, ih h]

theorem getVal_append_some (r : Record) (k k2 : String) (v w : Value)
    (h : getVal r k2 = some w) :
    getVal (r ++ [(k, v)]) k2 = some w := by
  induction r with
  | nil => simp [getVal] at h
  | cons hd tl ih =>
    obtain ⟨k3, u⟩ := hd
    simp only [getVal] at h
    by_cases h3 : k3 = k2
    · simp only [h3, if_true] at h
      simp [getVal, h3, h]
    · simp only [h3, if_false] at h
      simp [getVal, h3, ih h]

theorem getVal_setdefault_self (r : Record) (k : String) (v : Value) :
    getVal (setdefault r k v) k = some ((getVal r k).getD v) := by
  unfold setdefault
  cases h : getVal r k with
  | some w => simp [h]
  | none => simp [getVal_append_none r k k v h]

theorem getVal_setdefault_ne (r : Record) (k k2 : String) (v : Value) (h : k ≠ k2) :
    getVal (setdefault r k v) k2 = getVal r k2 := by
  unfold setdefault
  cases h2 : getVal r k with
  | some w => rfl
  | none =>
    cases h3 : getVal r k2 with
    | some w => exact getVal_append_some r k k2 v w h3
    | none => rw [getVal_append_none r k k2 v h3]; simp [h]

theorem defaultMeta_type (r : Record) :
    getVal (defaultMeta r) "__type__" = getVal r "__type__" := by
  unfold defaultMeta
  rw [getVal_setdefault_ne _ _ _ _ (by decide), getVal_setdefault_ne _ _ _ _ (by decide)]

theorem defaultMeta_estado (r : Record) :
    getVal (defaultMeta r) "__estado__"
      = some ((getVal r "__estado__").getD (.str "válido")) := by
  unfold defaultMeta
  rw [getVal_setdefault_ne _ _ _ _ (by decide), getVal_setdefault_self]

theorem defaultMeta_errors (r : Record) :
    getVal (defaultMeta r) "__errors__"
      = some ((getVal r "__errors__").getD (.list [])) := by
  unfold defaultMeta
  rw [getVal_setdefault_self, getVal_setdefault_ne _ _ _ _ (by decide)]

theorem defaultMeta_frame (r : Record) (k : String) (h1 : k ≠ "__estado__")
    (h2 : k ≠ "__errors__") :
    getVal (defaultMeta r) k = getVal r k := by
  unfold defaultMeta
  rw [getVal_setdefault_ne _ _ _ _ (Ne.symm h2), getVal_setdefault_ne _ _ _ _ (Ne.symm h1)]

theorem appendErrors_some (r : Record) (es : List String) (l : List String)
    (h : getVal r "__errors__" = some (.list l)) :
    appendErrors r es = some (setVal r "__errors__" (.list (l ++ es))) := by
  unfold appendErrors
  rw [h]

theorem appendErrors_inv (r : Record) (es : List String) (r2 : Record)
    (h : appendErrors r es = some r2) :
    ∃ l, getVal r "__errors__" = some (.list l)
      ∧ r2 = setVal r "__errors__" (.list (l ++ es)) := by
  unfold appendErrors at h
  cases h2 : getVal r "__errors__" with
  | none => rw [h2] at h; cases h
  | some v =>
    cases v with
    | list l =>
      rw [h2] at h
      exact ⟨l, rfl, (Option.some_injective _ h).symm⟩
    | str s => rw [h2] at h; cases h
    | num q => rw [h2] at h; cases h
    | bool b => rw [h2] at h; cases h
    | null => rw [h2] at h; cases h

theorem apply_frame (op : Operation) (r : Record) (k : String)
    (h : op.field_name ≠ k) :
    getVal ((op.apply r).1) k = getVal r k := by
  cases op with
  | contextualFieldValidation f rx => rfl
  | normalizeAmount f =>
    simp only [Operation.field_name] at h
    simp only [Operation.apply]
    cases h2 : getVal r f with
    | none => simp [getVal_setVal_ne _ _ _ _ h]
    | some v =>
      by_cases hv : v = .null
      · simp [hv]
      · simp only [hv, if_false]
        cases pyFloat? (cleanValue v.toStr) with
        | some q => simp [getVal_setVal_ne _ _ _ _ h]
        | none => simp [getVal_setVal_ne _ _ _ _ h]

theorem chainSpec_frame (ops : List Operation) (r : Record) (k : String)
    (h : ∀ op ∈ ops, op.field_name ≠ k) :
    getVal (chainSpec ops r).1 k = getVal r k := by
  induction ops generalizing r with
  | nil => rfl
  | cons op rest ih =>
    simp only [chainSpec]
    rw [ih _ (fun o ho => h o (List.mem_cons_of_mem _ ho)),
      apply_frame op r k (h op (List.mem_cons_self _ _))]

theorem chainApply_aux (ops : List Operation) (r : Record) (acc : List String) :
    ops.foldl (fun acc op => let res := op.apply acc.1; (res.1, acc.2 ++ res.2)) (r, acc)
      = ((chainSpec ops r).1, acc ++ (chainSpec ops r).2) := by
  induction ops generalizing r acc with
  | nil => simp [chainSpec]
  | cons op rest ih =>
    simp only [List.foldl, chainSpec]
    rw [ih]
    simp

theorem chainApply_eq (ops : List Operation) (r : Record) :
    chainApply ops r = chainSpec ops r := by
  unfold chainApply
  rw [chainApply_aux]
  simp

theorem lookupCtx_append_self (ctx : ContextOps) (t : String) (c : List Operation)
    (h : lookupCtx ctx t = none) :
    lookupCtx (ctx ++ [(t, c)]) t = some c := by
  induction ctx with
  | nil => simp [lookupCtx]
  | cons hd tl ih =>
    obtain ⟨t2, c2⟩ := hd
    simp only [lookupCtx] at h
    by_cases h2 : t2 = t
    · simp [h2] at h
    · simp only [h2, if_false] at h
      simp [lookupCtx, h2, ih h]

theorem lookupCtx_append_ne (ctx : ContextOps) (t t2 : String) (c : List Operation)
    (h : t2 ≠ t) :
    lookupCtx (ctx ++ [(t, c)]) t2 = lookupCtx ctx t2 := by
  induction ctx with
  | nil =>
    simp only [List.nil_append, lookupCtx]
    rw [if_neg fun hh => h hh.symm]
  | cons hd tl ih =>
    obtain ⟨t3, c3⟩ := hd
    by_cases h3 : t3 = t2
    · simp [lookupCtx, h3]
    · simp [lookupCtx, h3, ih]

theorem lookupCtx_chainOK (ctx : ContextOps) (s : String) (ops : List Operation)
    (h1 : ctxOK ctx) (h2 : lookupCtx ctx s = some ops) : chainOK ops := by
  induction ctx with
  | nil => cases h2
  | cons p rest ih =>
    obtain ⟨t, c⟩ := p
    simp only [lookupCtx] at h2
    by_cases ht : t = s
    · simp only [ht, if_true] at h2
      have hc : chainOK c := h1 (t, c) (List.mem_cons_self _ _)
      rwa [Option.some_injective _ h2] at hc
    · simp only [ht, if_false] at h2
      exact ih (fun p hp => h1 p (List.mem_cons_of_mem _ hp)) h2

theorem statusInvalid_congr {r1 r2 : Record}
    (h : getVal r1 "__estado__" = getVal r2 "__estado__") :
    statusInvalid r1 = statusInvalid r2 := by
  unfold statusInvalid
  rw [h]

theorem errsNonempty_congr {r1 r2 : Record}
    (h : getVal r1 "__errors__" = getVal r2 "__errors__") :
    errsNonempty r1 = errsNonempty r2 := by
  unfold errsNonempty
  rw [h]

theorem dispatch_eq_unrec (ctx : ContextOps) (r : Record) (cty : Option Value)
    (hlist : ∀ c cs, cty ≠ some (Value.list (c :: cs)))
    (hstr : ∀ s, cty = some (Value.str s) → s = "" ∨ lookupCtx ctx s = none) :
    dispatch ctx r cty = unrecognized r cty := by
  cases cty with
  | none => rfl
  | some v =>
    cases v with
    | str s =>
      by_cases hs : s = ""
      · simp [dispatch, hs]
      · rcases hstr s rfl with h | h
        · exact absurd h hs
        · simp [dispatch, hs, h]
    | num q => rfl
    | bool b => rfl
    | null => rfl
    | list l =>
      cases l with
      | nil => rfl
      | cons c cs => exact absurd rfl (hlist c cs)

theorem dispatch_eq_run (ctx : ContextOps) (r : Record) (s : String)
    (ops : List Operation) (h2 : s ≠ "") (h3 : lookupCtx ctx s = some ops) :
    dispatch ctx r (some (Value.str s)) = runChain ops r := by
  simp [dispatch, h2, h3]

theorem unrecognized_compute (r : Record) (cty : Option Value) (l : List String)
    (h : getVal r "__errors__" = some (.list l)) :
    unrecognized r cty
      = some (setVal (setVal r "__estado__" (.str "inválido")) "__errors__"
          (.list (l ++ [unrecMsg cty])), [unrecMsg cty]) := by
  unfold unrecognized
  rw [appendErrors_some _ _ l (by rw [getVal_setVal_ne _ _ _ _ (by decide)]; exact h)]
  rfl

theorem unrecognized_inv (r : Record) (cty : Option Value)
    (out : Record × List String) (h : unrecognized r cty = some out) :
    ∃ l, getVal r "__errors__" = some (.list l)
      ∧ out = (setVal (setVal r "__estado__" (.str "inválido")) "__errors__"
          (.list (l ++ [unrecMsg cty])), [unrecMsg cty]) := by
  unfold unrecognized at h
  cases happ : appendErrors (setVal r "__estado__" (.str "inválido")) [unrecMsg cty] with
  | none => rw [happ] at h; cases h
  | some r2 =>
    rw [happ] at h
    obtain ⟨l, hl, hr2⟩ := appendErrors_inv _ _ _ happ
    rw [getVal_setVal_ne _ _ _ _ (by decide)] at hl
    refine ⟨l, hl, ?_⟩
    cases h
    rw [hr2]

/-- The character class kept by the cleanup, in the order the claim lists it
(digit, comma, period, minus); equal to the order of the source character
class `[^\x5cd.,-]`. -/
theorem stripPred_eq (c : Char) :
    (c.isDigit || c == ',' || c == '.' || c == '-')
      = (c.isDigit || c == '.' || c == ',' || c == '-') := by
  cases hd : c.isDigit <;> cases h1 : (c == ',') <;> cases h2 : (c == '.') <;>
    simp [hd, h1, h2]

/-- Claim-side transliteration of the C3 wording: stringify, strip every
character that is not a digit, comma, period or minus sign, replace every
comma with a period, parse as a float. -/
def normalizeAmountSpec (f : String) (record : Record) : Record × List String :=
  match getVal record f with
  | none => (setVal record f .null, ["Campo \x27 " ++ f ++ "\x27 no encontrado"])
  | some v =>
    if v = .null then (record, [])
    else
      let stripped := (v.toStr).toList.filter
        (fun c => c.isDigit || c == ',' || c == '.' || c == '-')
      let replaced := stripped.map (fun c => if c == ',' then '.' else c)
      match pyFloat? (String.mk replaced) with
      | some q => (setVal record f (.num q), [])
      | none =>
        (setVal record f .null,
         ["Valor \x27 " ++ v.toStr ++ "\x27 no se puede convertirse a float"])

theorem cleanValue_eq_spec (s : String) :
    cleanValue s
      = String.mk ((s.toList.filter
          (fun c => c.isDigit || c == ',' || c == '.' || c == '-')).map
        (fun c => if c == ',' then '.' else c)) := by
  unfold cleanValue
  rw [List.filter_congr (fun a _ => (stripPred_eq a).symm)]

/-- Claim-side transliteration of the C6 wording: the first matching
condition in order (field absent → missing-field error; configured pattern
not matched by the stringified value → format error; present but falsy →
empty-field error; otherwise no error) determines the emitted list. -/
def fieldValidationSpec (f : String) (rx : Option Rx) (record : Record) : List String :=
  match getVal record f with
  | none => ["Campo obligatorio \x27 " ++ f ++ "\x27 no encontrado"]
  | some v =>
    match rx with
    | some pat =>
      if !(pat.rmatch v.toStr) then ["Campo \x27 " ++ f ++ "\x27 no cumple formato esperado"]
      else if v.falsy then ["Campo obligatorio \x27" ++ f ++ "\x27 está vacío"]
      else []
    | none =>
      if v.falsy then ["Campo obligatorio \x27" ++ f ++ "\x27 está vacío"]
      else []

/-- C3 (confirmed): `NormalizeAmountOperation.apply` implements exactly the
claimed case analysis — absent key → one field-not-found error and the field
set to null; present null → unchanged, no error; otherwise stringify, strip
non-numeric characters, normalize the comma to a period and parse, storing
the float on success and on failure appending one cannot-convert error and
setting the field to null; `"123,45 EUR"` becomes `123.45` with no error and
`"no_es_un_numero"` becomes null with one error. -/
theorem c3_normalize_case_analysis :
    (∀ f record, (Operation.normalizeAmount f).apply record = normalizeAmountSpec f record)
    ∧ (Operation.normalizeAmount "amount").apply [("amount", .str "123,45 EUR")]
        = ([("amount", .num (mkRat 12345 100))], [])
    ∧ (Operation.normalizeAmount "amount").apply [("amount", .str "no_es_un_numero")]
        = ([("amount", .null)],
           ["Valor \x27 no_es_un_numero\x27 no se puede convertirse a float"]) := by
  refine ⟨?_, by decide, by decide⟩
  intro f record
  simp only [Operation.apply, normalizeAmountSpec]
  cases getVal record f with
  | none => rfl
  | some v =>
    by_cases hv : v = .null
    · simp [hv]
    · simp only [hv, if_false]
      rw [cleanValue_eq_spec]

/-- C6 (confirmed): for every configuration and record, the validation
operation emits exactly the error list of the ordered first-match case
analysis `fieldValidationSpec`, and that list has at most one element; in
particular an absent field skips the pattern check. -/
theorem c6_validation_first_match :
    (∀ f rx record, (Operation.contextualFieldValidation f rx).apply record
        = (record, fieldValidationSpec f rx record))
    ∧ (∀ f rx record, (fieldValidationSpec f rx record).length ≤ 1) := by
  constructor
  · intro f rx record
    simp only [Operation.apply, fieldValidationSpec]
    cases getVal record f with
    | none => rfl
    | some v =>
      cases rx with
      | none => rfl
      | some pat => rfl
  · intro f rx record
    unfold fieldValidationSpec
    cases getVal record f with
    | none => simp
    | some v =>
      cases rx with
      | none => by_cases hv : v.falsy <;> simp [hv]
      | some pat =>
        by_cases hm : pat.rmatch v.toStr <;> by_cases hv : v.falsy <;> simp [hm, hv]

/-- C9 (confirmed): the validation operation never mutates the record: the
returned record is the one passed in, unchanged. -/
theorem c9_validation_no_mutation (f : String) (rx : Option Rx) (record : Record) :
    ((Operation.contextualFieldValidation f rx).apply record).1 = record := rfl

/-- C7 (confirmed): registering an already-registered context type fails with
the duplicate-context error and the registry keeps the first chain (the raise
leaves the table untouched, so the original registry value is unchanged);
registering a fresh type stores its chain and preserves every other entry. -/
theorem c7_register_context (ctx : ContextOps) (t : String)
    (chain0 chain1 : List Operation) :
    (lookupCtx ctx t = some chain0 →
      register_context ctx t chain1
          = Except.error ("El contexto \x27" ++ t ++ "\x27 ya está registrado")
        ∧ lookupCtx ctx t = some chain0)
    ∧ (lookupCtx ctx t = none →
      ∃ ctx1, register_context ctx t chain1 = Except.ok ctx1
        ∧ lookupCtx ctx1 t = some chain1
        ∧ ∀ t2, t2 ≠ t → lookupCtx ctx1 t2 = lookupCtx ctx t2) := by
  constructor
  · intro h
    refine ⟨?_, h⟩
    unfold register_context
    rw [h]
  · intro h
    refine ⟨ctx ++ [(t, chain1)], ?_, lookupCtx_append_self ctx t chain1 h, ?_⟩
    · unfold register_context
      rw [h]
    · intro t2 h2
      exact lookupCtx_append_ne ctx t t2 chain1 h2

/-- Witness for C7: a concrete duplicate registration fails with the exact
message, and a concrete fresh registration succeeds. -/
theorem c7_register_context_witness :
    register_context [("a", ([] : List Operation))] "a" []
        = Except.error ("El contexto \x27" ++ "a" ++ "\x27 ya está registrado")
    ∧ ∃ ctx1, register_context [("a", ([] : List Operation))] "b" [] = Except.ok ctx1
        ∧ lookupCtx ctx1 "b" = some [] := by
  have h1 := ((c7_register_context [("a", [])] "a" [] []).1 rfl).1
  obtain ⟨ctx1, h2, h3, _⟩ := (c7_register_context [("a", [])] "b" [] []).2 rfl
  exact ⟨h1, ctx1, h2, h3⟩

/-- C10 (confirmed): a validation with no configured pattern reports exactly
one empty-field error for a present falsy value; in particular the null that
the normalization operation silently accepts is still flagged by a
subsequent no-pattern validation of the same field. -/
theorem c10_falsy_validation (f : String) (record : Record) (v : Value)
    (h1 : getVal record f = some v) (h2 : v.falsy = true) :
    (Operation.contextualFieldValidation f none).apply record
        = (record, ["Campo obligatorio \x27" ++ f ++ "\x27 está vacío"])
    ∧ (v = Value.null →
        (Operation.normalizeAmount f).apply record = (record, [])) := by
  constructor
  · simp only [Operation.apply, h1]
    simp [h2]
  · intro hv
    subst hv
    simp [Operation.apply, h1]

/-- Witness for C10: the null value of a `price` field passes normalization
silently and is then reported as empty by the no-pattern validation. -/
theorem c10_falsy_validation_witness :
    (Operation.contextualFieldValidation "price" none).apply [("price", Value.null)]
        = ([("price", Value.null)], ["Campo obligatorio \x27price\x27 está vacío"])
    ∧ (Operation.normalizeAmount "price").apply [("price", Value.null)]
        = ([("price", Value.null)], []) := by
  have h := c10_falsy_validation "price" [("price", Value.null)] Value.null rfl rfl
  exact ⟨h.1, h.2 rfl⟩

/-- The order-event chain from the example driver: normalize `amount`, then
validate `order_id` against `^ORD\x5cd+$`, `customer_name` with no pattern, and
`timestamp` against the lexical timestamp pattern. -/
def orderEventOps : List Operation :=
  [.normalizeAmount "amount",
   .contextualFieldValidation "order_id" (some ordIdRx),
   .contextualFieldValidation "customer_name" none,
   .contextualFieldValidation "timestamp" (some timestampRx)]

/-- The C2 scenario input record. -/
def c2record : Record :=
  [("__type__", .str "order_event"), ("order_id", .str "ORD100"),
   ("customer_name", .str "Bob"), ("amount", .str "no_es_un_numero"),
   ("timestamp", .str "2024-13-01T25:61:00Z")]

/-- Counterexample for C2: the claim asserts the scenario yields exactly two
errors (a conversion failure and a timestamp format mismatch), but the code
emits exactly one error — the timestamp `"2024-13-01T25:61:00Z"` is
digit-shaped, so it matches the purely lexical pattern and produces no
format error. -/
theorem c2_counterexample :
    (processRecord [("order_event", orderEventOps)] c2record).map (fun p => List.length p.2)
        = some 1
    ∧ ¬ (processRecord [("order_event", orderEventOps)] c2record).map
          (fun p => List.length p.2) = some 2 := by
  decide

/-- C2 (amended): the scenario yields `status = inválido`, `amount = null`,
and exactly one error — the conversion failure for `amount`; the malformed
timestamp matches the lexical digit pattern, so no format error is emitted. -/
theorem c2_end_to_end_amended :
    processRecord [("order_event", orderEventOps)] c2record
      = some ([("__type__", .str "order_event"), ("order_id", .str "ORD100"),
               ("customer_name", .str "Bob"), ("amount", .null),
               ("timestamp", .str "2024-13-01T25:61:00Z"),
               ("__estado__", .str "inválido"),
               ("__errors__",
                .list ["Valor \x27 no_es_un_numero\x27 no se puede convertirse a float"])],
              ["Valor \x27 no_es_un_numero\x27 no se puede convertirse a float"])
    ∧ Rx.rmatch timestampRx "2024-13-01T25:61:00Z" = true := by
  decide

theorem defaultMeta_errors_list (record : Record) (h : errsShapeOK record = true) :
    getVal (defaultMeta record) "__errors__" = some (.list (errsList record)) := by
  rw [defaultMeta_errors]
  unfold errsShapeOK at h
  unfold errsList
  cases h2 : getVal record "__errors__" with
  | none => simp
  | some v =>
    rw [h2] at h
    cases v with
    | list l => simp
    | str s => cases h
    | num q => cases h
    | bool b => cases h
    | null => cases h

/-- C4 (amended): for every record whose type marker is absent or not
registered, provided the stored `__errors__` (if present) is a list and the
type marker is not a non-empty list (either defect makes the code raise
instead of emitting an outcome), the processor yields exactly one
unrecognized-type message, also appended to the record's errors field, sets
the status to `inválido`, and runs no operation: every non-metadata field is
unchanged. -/
theorem c4_unrecognized_amended (ctx : ContextOps) (record : Record)
    (h1 : ∀ s, getVal record "__type__" = some (Value.str s) → lookupCtx ctx s = none)
    (h2 : errsShapeOK record = true) (h3 : typeShapeOK record = true) :
    ∃ r1, processRecord ctx record = some (r1, [typeErrMsg record])
      ∧ getVal r1 "__estado__" = some (Value.str "inválido")
      ∧ getVal r1 "__errors__" = some (Value.list (errsList record ++ [typeErrMsg record]))
      ∧ ∀ k, k ≠ "__estado__" → k ≠ "__errors__" → getVal r1 k = getVal record k := by
  have hshape := defaultMeta_errors_list record h2
  have hlist : ∀ c cs, getVal record "__type__" ≠ some (Value.list (c :: cs)) := by
    intro c cs hcon
    unfold typeShapeOK at h3
    rw [hcon] at h3
    cases h3
  have hstr : ∀ s, getVal record "__type__" = some (Value.str s) →
      s = "" ∨ lookupCtx ctx s = none := fun s hs => Or.inr (h1 s hs)
  have hdisp := dispatch_eq_unrec ctx (defaultMeta record) (getVal record "__type__")
    hlist hstr
  refine ⟨setVal (setVal (defaultMeta record) "__estado__" (.str "inválido")) "__errors__"
    (.list (errsList record ++ [typeErrMsg record])), ?_, ?_, ?_, ?_⟩
  · show dispatch ctx (defaultMeta record) (getVal (defaultMeta record) "__type__") = _
    rw [defaultMeta_type, hdisp, unrecognized_compute _ _ _ hshape]
    rfl
  · rw [getVal_setVal_ne _ _ _ _ (by decide), getVal_setVal_self]
  · rw [getVal_setVal_self]
  · intro k hk1 hk2
    rw [getVal_setVal_ne _ _ _ _ (Ne.symm hk2), getVal_setVal_ne _ _ _ _ (Ne.symm hk1),
      defaultMeta_frame _ _ hk1 hk2]

/-- Witness for C4: a record with no type marker is emitted with exactly the
unrecognized-type message. -/
theorem c4_unrecognized_witness :
    (processRecord [] [("amount", Value.str "5")]).map (fun p => p.2)
      = some ["Tipo de registro \x27None\x27 no reconocido"] := by
  obtain ⟨r1, hp, -, -, -⟩ := c4_unrecognized_amended [] [("amount", Value.str "5")]
    (fun s h => Option.noConfusion h) rfl rfl
  rw [hp]
  rfl

/-- Counterexample for C4: a record whose type marker is absent (so the
claim applies) but whose `__errors__` field holds a non-list value makes the
code raise `AttributeError` while appending the message: no outcome is
emitted, no status is set, contradicting the claim as stated. -/
theorem c4_counterexample :
    processRecord [] [("__errors__", Value.str "boom")] = none := by decide

/-- C5 (amended): for every record whose type marker is a non-empty string
found in the registry, provided the stored `__errors__` (if present) is a
list and no chain operation targets a reserved metadata field, the processor
emits exactly the chain result: the local error list is the in-order
concatenation of the errors of each operation (`chainSpec`, where each
operation receives the record mutated by the previous one), no
unrecognized-type error is produced, and every non-metadata field of the
emitted record is the chain output. -/
theorem c5_chain_execution_amended (ctx : ContextOps) (record : Record) (s : String)
    (ops : List Operation) (h1 : getVal record "__type__" = some (.str s)) (h2 : s ≠ "")
    (h3 : lookupCtx ctx s = some ops) (h4 : errsShapeOK record = true)
    (h5 : chainOK ops) :
    ∃ r1, processRecord ctx record = some (r1, (chainSpec ops (defaultMeta record)).2)
      ∧ ∀ k, k ≠ "__estado__" → k ≠ "__errors__" →
          getVal r1 k = getVal (chainSpec ops (defaultMeta record)).1 k := by
  have hty : getVal (defaultMeta record) "__type__" = some (.str s) := by
    rw [defaultMeta_type]
    exact h1
  have hpr : processRecord ctx record = runChain ops (defaultMeta record) := by
    show dispatch ctx (defaultMeta record) (getVal (defaultMeta record) "__type__") = _
    rw [hty, dispatch_eq_run ctx _ s ops h2 h3]
  rw [hpr]
  unfold runChain
  rw [chainApply_eq]
  by_cases he : (chainSpec ops (defaultMeta record)).2.isEmpty
  · rw [if_pos he]
    exact ⟨(chainSpec ops (defaultMeta record)).1, rfl, fun k _ _ => rfl⟩
  · rw [if_neg he]
    have hshape := defaultMeta_errors_list record h4
    have hs2 : getVal (setVal (chainSpec ops (defaultMeta record)).1 "__estado__"
        (.str "inválido")) "__errors__" = some (.list (errsList record)) := by
      rw [getVal_setVal_ne _ _ _ _ (by decide),
        chainSpec_frame ops _ _ (fun op ho => (h5 op ho).2)]
      exact hshape
    rw [appendErrors_some _ _ _ hs2]
    refine ⟨_, rfl, ?_⟩
    intro k hk1 hk2
    rw [getVal_setVal_ne _ _ _ _ (Ne.symm hk2), getVal_setVal_ne _ _ _ _ (Ne.symm hk1)]

/-- Witness for C5: a registered non-empty type runs its chain; here the
single validation reports its missing field as the whole local error list. -/
theorem c5_chain_execution_witness :
    (processRecord [("t", [Operation.contextualFieldValidation "x" none])]
        [("__type__", Value.str "t")]).map (fun p => p.2)
      = some ["Campo obligatorio \x27 x\x27 no encontrado"] := by
  obtain ⟨r1, hp, -⟩ := c5_chain_execution_amended
    [("t", [Operation.contextualFieldValidation "x" none])] [("__type__", Value.str "t")]
    "t" [Operation.contextualFieldValidation "x" none] rfl (by decide) rfl rfl (by decide)
  rw [hp]
  rfl

/-- Counterexample for C5: the empty string can be registered, and a record
whose type marker is that registered empty string is still routed to the
unrecognized branch (Python falsiness), producing the unrecognized-type
error and skipping every operation of the registered chain — contradicting
the claim as stated for a present-and-registered marker. -/
theorem c5_counterexample :
    processRecord [("", [Operation.contextualFieldValidation "x" none])]
        [("__type__", Value.str "")]
      = some ([("__type__", Value.str ""), ("__estado__", Value.str "inválido"),
               ("__errors__", Value.list ["Tipo de registro \x27\x27 no reconocido"])],
              ["Tipo de registro \x27\x27 no reconocido"]) := by
  decide

theorem dispatch_total (ctx : ContextOps) (r : Record) (cty : Option Value)
    (l : List String) (h1 : ctxOK ctx) (hshape : getVal r "__errors__" = some (.list l))
    (hl : ∀ c cs, cty ≠ some (Value.list (c :: cs))) :
    ∃ out, dispatch ctx r cty = some out := by
  have hunrec : ∃ out, unrecognized r cty = some out :=
    ⟨_, unrecognized_compute r cty l hshape⟩
  cases cty with
  | none => exact hunrec
  | some v =>
    cases v with
    | str s =>
      by_cases hs : s = ""
      · simp only [dispatch, if_pos hs]
        exact hunrec
      · cases hctx2 : lookupCtx ctx s with
        | none =>
          simp only [dispatch, if_neg hs, hctx2]
          exact hunrec
        | some ops =>
          rw [dispatch_eq_run ctx r s ops hs hctx2]
          have hok := lookupCtx_chainOK ctx s ops h1 hctx2
          unfold runChain
          rw [chainApply_eq]
          by_cases he : (chainSpec ops r).2.isEmpty
          · rw [if_pos he]
            exact ⟨_, rfl⟩
          · rw [if_neg he]
            have hs2 : getVal (setVal (chainSpec ops r).1 "__estado__" (.str "inválido"))
                "__errors__" = some (.list l) := by
              rw [getVal_setVal_ne _ _ _ _ (by decide),
                chainSpec_frame ops r _ (fun op ho => (hok op ho).2)]
              exact hshape
            rw [appendErrors_some _ _ _ hs2]
            exact ⟨_, rfl⟩
    | num q => exact hunrec
    | bool b => exact hunrec
    | null => exact hunrec
    | list l2 =>
      cases l2 with
      | nil => exact hunrec
      | cons c cs => exact absurd rfl (hl c cs)

theorem processRecord_total (ctx : ContextOps) (record : Record)
    (h1 : ctxOK ctx) (h2 : errsShapeOK record = true) (h3 : typeShapeOK record = true) :
    ∃ out, processRecord ctx record = some out := by
  have hshape := defaultMeta_errors_list record h2
  have hl : ∀ c cs, getVal record "__type__" ≠ some (Value.list (c :: cs)) := by
    intro c cs hcon
    unfold typeShapeOK at h3
    rw [hcon] at h3
    cases h3
  have htot := dispatch_total ctx (defaultMeta record) (getVal record "__type__")
    (errsList record) h1 hshape hl
  show ∃ out, dispatch ctx (defaultMeta record) (getVal (defaultMeta record) "__type__")
    = some out
  rw [defaultMeta_type]
  exact htot

/-- C8 (amended): provided every registered chain avoids the reserved
metadata fields and every input record's `__errors__` (if present) is a list
and its `__type__` is not a non-empty list, no exception escapes per-record
processing: the stream yields exactly one (record, error-list) outcome per
input record, in order.  (Both concrete `Operation.apply` translations are
total Lean functions on any record, matching the no-raise contract of the
operations themselves.) -/
theorem c8_no_escape_amended (ctx : ContextOps) (records : List Record)
    (h1 : ctxOK ctx)
    (h2 : ∀ r ∈ records, errsShapeOK r = true ∧ typeShapeOK r = true) :
    ∃ outs, process_stream ctx records = some outs ∧ outs.length = records.length := by
  induction records with
  | nil => exact ⟨[], rfl, rfl⟩
  | cons r rest ih =>
    obtain ⟨out, hout⟩ := processRecord_total ctx r h1
      (h2 r (List.mem_cons_self _ _)).1 (h2 r (List.mem_cons_self _ _)).2
    obtain ⟨outs, houts, hlen⟩ := ih (fun x hx => h2 x (List.mem_cons_of_mem _ hx))
    refine ⟨out :: outs, ?_, by simp [hlen]⟩
    unfold process_stream at houts ⊢
    rw [List.mapM_cons, hout, houts]
    rfl

/-- Witness for C8: a concrete two-record stream (one recognized, one with a
missing type marker) produces exactly two outcomes. -/
theorem c8_no_escape_witness :
    (process_stream [("t", [])] [[("__type__", Value.str "t")], []]).map List.length
      = some 2 := by
  obtain ⟨outs, h1, h2⟩ := c8_no_escape_amended [("t", [])]
    [[("__type__", Value.str "t")], []] (by decide) (by decide)
  rw [h1]
  show some outs.length = some 2
  rw [h2]
  rfl

/-- Counterexample for C8: a record carrying a numeric `__errors__` value
makes the unrecognized-type branch raise `AttributeError` on append — an
exception escapes the per-record step and no outcome is emitted,
contradicting the claim as stated. -/
theorem c8_counterexample :
    processRecord [] [("__type__", Value.str "t"), ("__errors__", Value.num (mkRat 5 1))]
      = none := by
  decide

theorem dispatch_inv (ctx : ContextOps) (r : Record) (cty : Option Value)
    (out : Record × List String) (h : dispatch ctx r cty = some out) :
    unrecognized r cty = some out
    ∨ ∃ s ops, cty = some (Value.str s) ∧ s ≠ "" ∧ lookupCtx ctx s = some ops
        ∧ runChain ops r = some out := by
  cases cty with
  | none => exact Or.inl h
  | some v =>
    cases v with
    | str s =>
      by_cases hs : s = ""
      · simp only [dispatch, if_pos hs] at h
        exact Or.inl h
      · cases hl : lookupCtx ctx s with
        | none =>
          simp only [dispatch, if_neg hs, hl] at h
          exact Or.inl h
        | some ops =>
          rw [dispatch_eq_run ctx r s ops hs hl] at h
          exact Or.inr ⟨s, ops, rfl, hs, hl, h⟩
    | num q => exact Or.inl h
    | bool b => exact Or.inl h
    | null => exact Or.inl h
    | list l =>
      cases l with
      | nil => exact Or.inl h
      | cons c cs => exact Option.noConfusion h

theorem runChain_inv (ops : List Operation) (r : Record) (out : Record × List String)
    (h : runChain ops r = some out) :
    ((chainSpec ops r).2 = [] ∧ out = chainSpec ops r)
    ∨ ((chainSpec ops r).2 ≠ []
        ∧ ∃ l, getVal (chainSpec ops r).1 "__errors__" = some (.list l)
          ∧ out = (setVal (setVal (chainSpec ops r).1 "__estado__" (.str "inválido"))
              "__errors__" (.list (l ++ (chainSpec ops r).2)), (chainSpec ops r).2)) := by
  unfold runChain at h
  rw [chainApply_eq] at h
  by_cases he : (chainSpec ops r).2.isEmpty
  · left
    rw [if_pos he] at h
    exact ⟨List.isEmpty_iff.mp he, (Option.some_injective _ h).symm⟩
  · right
    rw [if_neg he] at h
    refine ⟨fun hc => he (by rw [hc]; rfl), ?_⟩
    cases happ : appendErrors (setVal (chainSpec ops r).1 "__estado__" (.str "inválido"))
        (chainSpec ops r).2 with
    | none => rw [happ] at h; cases h
    | some r2 =>
      rw [happ] at h
      obtain ⟨l, hl, hr2⟩ := appendErrors_inv _ _ _ happ
      rw [getVal_setVal_ne _ _ _ _ (by decide)] at hl
      refine ⟨l, hl, ?_⟩
      have hout : out = (r2, (chainSpec ops r).2) := (Option.some_injective _ h).symm
      rw [hout, hr2]

/-- C1 (amended): for every record whose incoming metadata (after
defaulting) already satisfies the invariant and every registry whose chains
avoid the reserved metadata fields, whenever the processor emits an outcome,
the final status is `inválido` exactly when the final `__errors__` list is
non-empty; and a record arriving without metadata that passes its chain with
zero errors ends with status `válido` and an empty errors list. -/
theorem c1_invariant_amended (ctx : ContextOps) (record : Record)
    (r1 : Record) (es : List String) (h1 : ctxOK ctx)
    (h2 : statusInvalid (defaultMeta record) = errsNonempty (defaultMeta record))
    (h3 : processRecord ctx record = some (r1, es)) :
    statusInvalid r1 = errsNonempty r1
    ∧ (es = [] → getVal record "__estado__" = none → getVal record "__errors__" = none →
        getVal r1 "__estado__" = some (Value.str "válido")
        ∧ getVal r1 "__errors__" = some (Value.list [])) := by
  have h3d : dispatch ctx (defaultMeta record) (getVal (defaultMeta record) "__type__")
      = some (r1, es) := h3
  rcases dispatch_inv _ _ _ _ h3d with hunrec | ⟨s, ops, hty, hs, hl, hrun⟩
  · obtain ⟨l, hl2, hout⟩ := unrecognized_inv _ _ _ hunrec
    have hr : r1 = setVal (setVal (defaultMeta record) "__estado__" (.str "inválido"))
        "__errors__" (.list (l ++ [unrecMsg (getVal (defaultMeta record) "__type__")])) :=
      congrArg Prod.fst hout
    have he : es = [unrecMsg (getVal (defaultMeta record) "__type__")] :=
      congrArg Prod.snd hout
    have hst : getVal r1 "__estado__" = some (.str "inválido") := by
      rw [hr, getVal_setVal_ne _ _ _ _ (by decide), getVal_setVal_self]
    have herr : getVal r1 "__errors__"
        = some (.list (l ++ [unrecMsg (getVal (defaultMeta record) "__type__")])) := by
      rw [hr, getVal_setVal_self]
    constructor
    · unfold statusInvalid errsNonempty
      rw [hst, herr]
      cases l <;> rfl
    · intro hes
      rw [he] at hes
      cases hes
  · have hok : chainOK ops := lookupCtx_chainOK ctx s ops h1 hl
    rcases runChain_inv _ _ _ hrun with ⟨he, hout⟩ | ⟨hne, l, hl2, hout⟩
    · have hr : r1 = (chainSpec ops (defaultMeta record)).1 := congrArg Prod.fst hout
      have hframe_st : getVal r1 "__estado__" = getVal (defaultMeta record) "__estado__" := by
        rw [hr]
        exact chainSpec_frame _ _ _ (fun op ho => (hok op ho).1)
      have hframe_err : getVal r1 "__errors__" = getVal (defaultMeta record) "__errors__" := by
        rw [hr]
        exact chainSpec_frame _ _ _ (fun op ho => (hok op ho).2)
      constructor
      · rw [statusInvalid_congr hframe_st, errsNonempty_congr hframe_err]
        exact h2
      · intro _ hstnone herrnone
        constructor
        · rw [hframe_st, defaultMeta_estado, hstnone]
          rfl
        · rw [hframe_err, defaultMeta_errors, herrnone]
          rfl
    · have hr : r1 = setVal (setVal (chainSpec ops (defaultMeta record)).1 "__estado__"
          (.str "inválido")) "__errors__"
          (.list (l ++ (chainSpec ops (defaultMeta record)).2)) := congrArg Prod.fst hout
      have he : es = (chainSpec ops (defaultMeta record)).2 := congrArg Prod.snd hout
      constructor
      · have hst : getVal r1 "__estado__" = some (.str "inválido") := by
          rw [hr, getVal_setVal_ne _ _ _ _ (by decide), getVal_setVal_self]
        have herr : getVal r1 "__errors__"
            = some (.list (l ++ (chainSpec ops (defaultMeta record)).2)) := by
          rw [hr, getVal_setVal_self]
        unfold statusInvalid errsNonempty
        rw [hst, herr]
        have hne2 : l ++ (chainSpec ops (defaultMeta record)).2 ≠ [] := by
          intro hc
          exact hne (List.append_eq_nil.mp hc).2
        cases hcc : l ++ (chainSpec ops (defaultMeta record)).2 with
        | nil => exact absurd hcc hne2
        | cons a as => rfl
      · intro hes
        exact absurd (he.symm.trans hes) hne

/-- Witness for C1: a fresh record with a registered type and an empty chain
completes with status `válido` and an empty errors list, matching the
invariant. -/
theorem c1_invariant_witness :
    statusInvalid [("__type__", Value.str "t"), ("__estado__", Value.str "válido"),
        ("__errors__", Value.list [])]
      = errsNonempty [("__type__", Value.str "t"), ("__estado__", Value.str "válido"),
        ("__errors__", Value.list [])]
    ∧ getVal [("__type__", Value.str "t"), ("__estado__", Value.str "válido"),
        ("__errors__", Value.list [])] "__estado__" = some (Value.str "válido")
    ∧ getVal [("__type__", Value.str "t"), ("__estado__", Value.str "válido"),
        ("__errors__", Value.list [])] "__errors__" = some (Value.list []) := by
  have h := c1_invariant_amended [("t", [])] [("__type__", Value.str "t")]
    [("__type__", Value.str "t"), ("__estado__", Value.str "válido"),
     ("__errors__", Value.list [])] [] (by decide) (by decide) (by decide)
  exact ⟨h.1, (h.2 rfl rfl rfl).1, (h.2 rfl rfl rfl).2⟩

/-- Counterexample for C1: a record arriving with a pre-existing
`__estado__ = "inválido"` is preserved by `setdefault`; its chain adds no
error, so it completes with status `inválido` and an empty errors list —
the claimed iff fails on the code as stated. -/
theorem c1_counterexample :
    processRecord [("t", [])] [("__type__", Value.str "t"), ("__estado__", Value.str "inválido")]
      = some ([("__type__", Value.str "t"), ("__estado__", Value.str "inválido"),
               ("__errors__", Value.list [])], [])
    ∧ statusInvalid [("__type__", Value.str "t"), ("__estado__", Value.str "inválido"),
        ("__errors__", Value.list [])] = true
    ∧ errsNonempty [("__type__", Value.str "t"), ("__estado__", Value.str "inválido"),
        ("__errors__", Value.list [])] = false := by
  decide

end DinamoFlow
